import Mathlib

/-!
Verification of the dev-prism session/port allocation engine.

The development shallowly embeds the two SQLite-backed registry variants and
the pure algorithms of the repository:

* `lib/db.ts` (variant B, path-keyed sessions): tables `sessions`,
  `port_allocations`, `reservations`; operations `createDbSession`,
  `deleteDbSession`, `getDbSession`, `getPortAllocations`, `reservePort`,
  `unreservePort`, `allocatePorts`.  SQLite behaviour that the code relies on
  is embedded explicitly: `UNIQUE` / `PRIMARY KEY` / `FOREIGN KEY` checks on
  insert, `ON DELETE CASCADE` (the database is opened with
  `foreign_keys = ON`), and all-or-nothing transactions (an error from any
  statement inside `db.transaction(...)` rolls the whole batch back, so the
  caller keeps the pre-transaction state).
* `lib/store.ts` (variant A, short-id sessions): table `sessions` with an
  unconditional `UNIQUE(session_id, project_root)` constraint; operations
  `SessionStore.insert`, `SessionStore.markDestroyed`, `SessionStore.remove`.
* `lib/env.ts` `renderAppEnv`: template rendering, with JS
  `String.replace(new RegExp(..., "g"), ...)` on a literal `\x24{name}`
  pattern embedded as left-to-right, non-overlapping literal substring
  replacement on lists of characters.
* `lib/worktree.ts` `findNextSessionId`.
* `withEnv` of `commands/claude.ts`: environment construction (JS object
  spread merge) and exit-code propagation over the documented interface of
  `execa` when called with `reject: false`.

The OS free-port prober (`get-port`) is a parameter `probe` of
`allocatePorts`: it receives the index of the probe call and the exclusion
list and returns an arbitrary port, so every theorem below holds even for an
adversarial OS.
-/

/-- Row of the `sessions` table of `lib/db.ts` (variant B): the session is
keyed by its working-directory path. -/
structure DbSession where
  id : String
  branch : Option String
  created_at : String
deriving DecidableEq, Repr

/-- Row of the `port_allocations` table of `lib/db.ts`. -/
structure PortAllocation where
  session_id : String
  service : String
  port : Nat
deriving DecidableEq, Repr

/-- Row of the `reservations` table of `lib/db.ts`. -/
structure Reservation where
  port : Nat
  reason : Option String
  created_at : String
deriving DecidableEq, Repr

/-- The registry state of `lib/db.ts`: the three tables, each as a list of
rows in insertion order. -/
structure DbState where
  sessions : List DbSession
  port_allocations : List PortAllocation
  reservations : List Reservation
deriving DecidableEq, Repr

/-- SQLite constraint-violation error codes as surfaced by `better-sqlite3`
in `err.code` (`SQLITE_CONSTRAINT_UNIQUE`, `SQLITE_CONSTRAINT_PRIMARYKEY`,
`SQLITE_CONSTRAINT_FOREIGNKEY`).  `allocatePorts` retries exactly on
`constraintUnique`. -/
inductive DbError where
  | constraintUnique
  | constraintPrimaryKey
  | constraintForeignKey
deriving DecidableEq, Repr

/-- `SELECT port FROM port_allocations` (`getAllocatedPorts` in `lib/db.ts`). -/
def getAllocatedPorts (st : DbState) : List Nat :=
  st.port_allocations.map (fun r => r.port)

/-- `SELECT port FROM reservations` (`getReservedPorts` in `lib/db.ts`). -/
def getReservedPorts (st : DbState) : List Nat :=
  st.reservations.map (fun r => r.port)

/-- `SELECT ... FROM sessions WHERE id = ?` (`getDbSession` in `lib/db.ts`). -/
def getDbSession (st : DbState) (sessionId : String) : Option DbSession :=
  st.sessions.find? (fun s => s.id == sessionId)

/-- `SELECT ... FROM port_allocations WHERE session_id = ?`
(`getPortAllocations` in `lib/db.ts`). -/
def getPortAllocations (st : DbState) (sessionId : String) : List PortAllocation :=
  st.port_allocations.filter (fun a => a.session_id == sessionId)

/-- `INSERT INTO sessions (id, branch, created_at) VALUES (?, ?, ?)`
(`createDbSession` in `lib/db.ts`).  `id` is `TEXT PRIMARY KEY`, so the
insert fails when a row with the same id already exists. -/
def createDbSession (st : DbState) (s : DbSession) : Except DbError DbState :=
  if st.sessions.any (fun r => r.id == s.id) then .error .constraintPrimaryKey
  else .ok { st with sessions := st.sessions ++ [s] }

/-- `DELETE FROM sessions WHERE id = ?` (`deleteDbSession` in `lib/db.ts`).
The database is opened with `foreign_keys = ON` and `port_allocations`
declares `REFERENCES sessions(id) ON DELETE CASCADE`, so deleting a session
row also deletes every allocation row referencing it; when no session row
matches, nothing is deleted and no cascade fires. -/
def deleteDbSession (st : DbState) (sessionId : String) : DbState :=
  if st.sessions.any (fun s => s.id == sessionId) then
    { st with
      sessions := st.sessions.filter (fun s => s.id != sessionId),
      port_allocations := st.port_allocations.filter (fun a => a.session_id != sessionId) }
  else st

/-- `INSERT INTO reservations (port, reason, created_at) VALUES (?, ?, ?)`
(`reservePort` in `lib/db.ts`); `port` is the primary key. -/
def reservePort (st : DbState) (port : Nat) (reason : Option String) (now : String) :
    Except DbError DbState :=
  if st.reservations.any (fun r => r.port == port) then .error .constraintPrimaryKey
  else .ok { st with reservations :=
    st.reservations ++ [{ port := port, reason := reason, created_at := now }] }

/-- `DELETE FROM reservations WHERE port = ?` (`unreservePort` in `lib/db.ts`). -/
def unreservePort (st : DbState) (port : Nat) : DbState :=
  { st with reservations := st.reservations.filter (fun r => r.port != port) }

/-- One `INSERT INTO port_allocations (session_id, service, port)` statement:
SQLite checks the `FOREIGN KEY (session_id)`, the
`PRIMARY KEY (session_id, service)` and the `UNIQUE` constraint on `port`.
The theorems below only ever evaluate this on rows violating at most one
constraint, so the check order is immaterial to them. -/
def insertPortAllocation (st : DbState) (a : PortAllocation) : Except DbError DbState :=
  if st.sessions.all (fun s => s.id != a.session_id) then .error .constraintForeignKey
  else if st.port_allocations.any
      (fun r => r.session_id == a.session_id && r.service == a.service) then
    .error .constraintPrimaryKey
  else if st.port_allocations.any (fun r => r.port == a.port) then .error .constraintUnique
  else .ok { st with port_allocations := st.port_allocations ++ [a] }

/-- The body of `db.transaction(() => \x7b for (...) insert.run(...) \x7d)`:
the statements run in order and the first failure aborts the batch.
`better-sqlite3` rolls the transaction back on an exception, which the
embedding renders by returning no state on error — the caller keeps the
pre-transaction state. -/
def runInserts (st : DbState) (batch : List PortAllocation) : Except DbError DbState :=
  match batch with
  | [] => .ok st
  | a :: rest =>
    match insertPortAllocation st a with
    | .ok st1 => runInserts st1 rest
    | .error e => .error e

/-- The probe loop of `allocatePorts`: for each service name in order, ask
the prober for a port (the prober receives the index of this probe call and
the current exclusion list), add the returned port to the exclusion list and
record the `(service, port)` pair. -/
def probeAllocs (probe : Nat → List Nat → Nat) (sid : String) :
    Nat → List Nat → List String → List PortAllocation
  | _, _, [] => []
  | k, exclude, name :: rest =>
    let port := probe k exclude
    { session_id := sid, service := name, port := port } ::
      probeAllocs probe sid (k + 1) (exclude ++ [port]) rest

/-- The exclusion set computed from the registry at the head of
`allocatePorts` (and recomputed before the retry): all allocated ports plus
all reserved ports. -/
def excludeBase (st : DbState) : List Nat :=
  getAllocatedPorts st ++ getReservedPorts st

/-- The `(service, port)` pairs probed by the first attempt of
`allocatePorts`. -/
def firstAttempt (probe : Nat → List Nat → Nat) (st : DbState) (sid : String)
    (services : List String) : List PortAllocation :=
  probeAllocs probe sid 0 (excludeBase st) services

/-- The `(service, port)` pairs probed by the retry of `allocatePorts`: the
exclusion set is recomputed fresh from the (rolled-back) registry and the
probe counter continues after the `services.length` probes of the first
attempt. -/
def retryAttempt (probe : Nat → List Nat → Nat) (st : DbState) (sid : String)
    (services : List String) : List PortAllocation :=
  probeAllocs probe sid services.length (excludeBase st) services

/-- `allocatePorts` of `lib/db.ts`.  Empty service list: empty result, no
transaction.  Otherwise probe one port per service, insert all pairs in one
transaction; if that transaction fails with `SQLITE_CONSTRAINT_UNIQUE`,
recompute the exclusion set, re-probe and retry the transaction once, and
any failure of the retry propagates to the caller; a first failure with any
other code propagates immediately.  The returned pair is (result thrown or
returned, final registry state). -/
def allocatePorts (probe : Nat → List Nat → Nat) (st : DbState) (sid : String)
    (services : List String) : Except DbError (List PortAllocation) × DbState :=
  if services.isEmpty then (.ok [], st)
  else
    match runInserts st (firstAttempt probe st sid services) with
    | .ok st1 => (.ok (firstAttempt probe st sid services), st1)
    | .error .constraintUnique =>
      match runInserts st (retryAttempt probe st sid services) with
      | .ok st2 => (.ok (retryAttempt probe st sid services), st2)
      | .error e2 => (.error e2, st)
    | .error e => (.error e, st)

/-- The central invariant: no two rows of `port_allocations` hold the same
port number. -/
def portsNodup (st : DbState) : Prop :=
  (getAllocatedPorts st).Nodup

instance (st : DbState) : Decidable (portsNodup st) := by
  unfold portsNodup; infer_instance

/-- Referential integrity of the registry: every allocation row references
an existing session row.  SQLite enforces this (`foreign_keys = ON`), so it
holds in every state the program can observe. -/
def fkIntact (st : DbState) : Bool :=
  st.port_allocations.all (fun a => st.sessions.any (fun s => s.id == a.session_id))

/-- Registry states reachable through the engine's operations, starting from
the freshly created (empty) database. -/
inductive Reach : DbState → Prop where
  | init : Reach ⟨[], [], []⟩
  | createSession {st st' : DbState} {s : DbSession} :
      Reach st → createDbSession st s = .ok st' → Reach st'
  | deleteSession {st : DbState} (sid : String) :
      Reach st → Reach (deleteDbSession st sid)
  | alloc {st : DbState} (probe : Nat → List Nat → Nat) (sid : String)
      (services : List String) :
      Reach st → Reach (allocatePorts probe st sid services).2
  | reserve {st st' : DbState} {p : Nat} {reason : Option String} {now : String} :
      Reach st → reservePort st p reason now = .ok st' → Reach st'
  | unreserve {st : DbState} (p : Nat) :
      Reach st → Reach (unreservePort st p)

/-- Row of the `sessions` table of `lib/store.ts` (variant A): sessions are
keyed by a short numeric id per project, `in_place` is stored as the integer
0 or 1, and `destroyed_at` is the soft-delete marker.  The schema declares an
unconditional `UNIQUE(session_id, project_root)` over all rows. -/
structure SessionRow where
  id : Nat
  session_id : String
  project_root : String
  session_dir : String
  branch : String
  mode : String
  in_place : Nat
  created_at : String
  destroyed_at : Option String
deriving DecidableEq, Repr

/-- State of the variant-A store: the rows in insertion order plus the next
`AUTOINCREMENT` value for the integer primary key. -/
structure StoreState where
  rows : List SessionRow
  nextId : Nat
deriving DecidableEq, Repr

/-- Argument object of `SessionStore.insert` (optional fields get the SQL
defaults `''`, `'docker'` and `0`). -/
structure InsertRow where
  sessionId : String
  projectRoot : String
  sessionDir : String
  branch : Option String
  mode : Option String
  inPlace : Option Bool
deriving DecidableEq, Repr

/-- `SessionStore.insert` of `lib/store.ts`: the SQL insert fails with
`SQLITE_CONSTRAINT_UNIQUE` when any row — active or soft-deleted — already
holds the same `(session_id, project_root)` pair, since the schema's
`UNIQUE(session_id, project_root)` is not a partial index. -/
def SessionStore.insert (st : StoreState) (row : InsertRow) (now : String) :
    Except DbError (SessionRow × StoreState) :=
  if st.rows.any (fun r =>
      r.session_id == row.sessionId && r.project_root == row.projectRoot) then
    .error .constraintUnique
  else
    let r : SessionRow :=
      { id := st.nextId
        session_id := row.sessionId
        project_root := row.projectRoot
        session_dir := row.sessionDir
        branch := row.branch.getD ""
        mode := row.mode.getD "docker"
        in_place := match row.inPlace with | some true => 1 | _ => 0
        created_at := now
        destroyed_at := none }
    .ok (r, { rows := st.rows ++ [r], nextId := st.nextId + 1 })

/-- The row filter of `SessionStore.markDestroyed`:
`WHERE project_root = ? AND session_id = ? AND destroyed_at IS NULL`. -/
def activeMatch (root sid : String) (r : SessionRow) : Bool :=
  r.project_root == root && r.session_id == sid && r.destroyed_at.isNone

/-- `SessionStore.markDestroyed` of `lib/store.ts`:
`UPDATE sessions SET destroyed_at = datetime('now') WHERE project_root = ?
AND session_id = ? AND destroyed_at IS NULL`, returning `info.changes > 0` —
whether any row matched. -/
def SessionStore.markDestroyed (st : StoreState) (root sid : String) (now : String) :
    Bool × StoreState :=
  (st.rows.any (activeMatch root sid),
   { st with rows := st.rows.map (fun r =>
       if activeMatch root sid r then { r with destroyed_at := some now } else r) })

/-- `SessionStore.remove` of `lib/store.ts`:
`DELETE FROM sessions WHERE project_root = ? AND session_id = ?`, returning
whether any row was deleted. -/
def SessionStore.remove (st : StoreState) (root sid : String) : Bool × StoreState :=
  (st.rows.any (fun r => r.project_root == root && r.session_id == sid),
   { st with rows := st.rows.filter (fun r =>
       !(r.project_root == root && r.session_id == sid)) })

/-- The dollar sign character. -/
def dollarCh : Char := Char.ofNat 36

/-- The opening-brace character. -/
def lbraceCh : Char := Char.ofNat 123

/-- The closing-brace character. -/
def rbraceCh : Char := Char.ofNat 125

/-- The literal text matched by `new RegExp("\\$\\\x7b" + name + "\\\x7d", "g")`
for a name free of regex metacharacters: the characters of
`"$" + "\x7b" + name + "\x7d"`. -/
def tokenLC (name : List Char) : List Char :=
  dollarCh :: lbraceCh :: (name ++ [rbraceCh])

/-- `tokenLC` of the characters of a string name. -/
def tokenOf (name : String) : List Char :=
  tokenLC name.toList

/-- Decimal text of a port value (`String(portValue)`). -/
def natChars (v : Nat) : List Char :=
  (Nat.repr v).toList

/-- Worker of `replaceAll`, structurally recursive on the subject string.
The second argument counts characters of a previously found match still to
be skipped (their replacement is already emitted). -/
def replaceAllAux (pat rep : List Char) : List Char → Nat → List Char
  | [], _ => []
  | _ :: rest, Nat.succ k => replaceAllAux pat rep rest k
  | c :: rest, 0 =>
    if pat.isPrefixOf (c :: rest) && !pat.isEmpty then
      rep ++ replaceAllAux pat rep rest (pat.length - 1)
    else
      c :: replaceAllAux pat rep rest 0

/-- JS `subject.replace(regexWithGlobalFlag, rep)` for a literal pattern:
scan left to right, replace each non-overlapping occurrence of `pat` by
`rep`, never rescanning emitted replacement text. -/
def replaceAll (pat rep s : List Char) : List Char :=
  replaceAllAux pat rep s 0

/-- Whether `pat` occurs as a contiguous substring of `s`. -/
def containsSub (pat : List Char) : List Char → Bool
  | [] => pat.isEmpty
  | c :: rest => pat.isPrefixOf (c :: rest) || containsSub pat rest

/-- The inner loop of `renderAppEnv` on one template string: for each
`(portName, portValue)` entry in order, globally replace the literal token
of `portName` by the decimal port value. -/
def renderString (ports : List (String × Nat)) (s : List Char) : List Char :=
  ports.foldl (fun acc p => replaceAll (tokenOf p.1) (natChars p.2) acc) s

/-- `renderAppEnv` of `lib/env.ts`: render every template entry's value,
keeping its key. -/
def renderAppEnv (template : List (String × List Char)) (ports : List (String × Nat)) :
    List (String × List Char) :=
  template.map (fun kv => (kv.1, renderString ports kv.2))

/-- `String(i).padStart(3, '0')` for the loop counter of
`findNextSessionId` (only ever called with `1 ≤ i ≤ 999`). -/
def pad3 (i : Nat) : String :=
  if i < 10 then "00" ++ Nat.repr i
  else if i < 100 then "0" ++ Nat.repr i
  else Nat.repr i

/-- The message of the error thrown when the id loop is exhausted. -/
def noIdsMsg : String := "No available session IDs (001-999 all in use)"

/-- The `for (let i = 1; i <= 999; i++)` loop of `findNextSessionId`,
walking an explicit list of candidate indices. -/
def findFirstFree (usedIds : List String) : List Nat → Except String String
  | [] => .error noIdsMsg
  | i :: rest =>
    if usedIds.contains (pad3 i) then findFirstFree usedIds rest
    else .ok (pad3 i)

/-- `findNextSessionId` of `lib/worktree.ts`: the first identifier among
`"001"`..`"999"` not in the used set, or the explicit exhaustion error. -/
def findNextSessionId (usedIds : List String) : Except String String :=
  findFirstFree usedIds (List.range' 1 999)

/-- A process environment: a finite map from variable names to values,
rendered as a function (a JS object key either is present with a value or is
absent). -/
def EnvMap : Type := String → Option String

/-- The empty environment object (`let sessionEnv = \x7b\x7d`). -/
def emptyEnv : EnvMap := fun _ => none

/-- JS object spread `\x7b...base, ...extra\x7d`: keys of `extra` win. -/
def mergeEnv (base extra : EnvMap) : EnvMap :=
  fun k => match extra k with
    | some v => some v
    | none => base k

/-- The session-environment computation of `withEnv` in `commands/claude.ts`:
when `findProjectRoot` threw (`root = none`) the catch leaves `sessionEnv`
empty; when a root was found but `getDbSession(db, cwd)` returns no row,
`sessionEnv` also stays empty; only with a session row is the environment
built (from the project config, an external input abstracted as the
`buildEnv` parameter). -/
def withEnvSessionEnv (root : Option String) (st : DbState) (cwd : String)
    (buildEnv : String → DbSession → List PortAllocation → EnvMap) : EnvMap :=
  match root with
  | none => emptyEnv
  | some projectRoot =>
    match getDbSession st cwd with
    | none => emptyEnv
    | some s => buildEnv projectRoot s (getPortAllocations st s.id)

/-- The environment handed to the child command by `withEnv`:
`\x7b...process.env, ...sessionEnv\x7d`. -/
def withEnvFinalEnv (root : Option String) (st : DbState) (cwd : String)
    (buildEnv : String → DbSession → List PortAllocation → EnvMap)
    (inherited : EnvMap) : EnvMap :=
  mergeEnv inherited (withEnvSessionEnv root st cwd buildEnv)

/-- Outcome of attempting to run the child command. -/
inductive ChildOutcome where
  | exited (code : Nat)
  | killedBySignal
  | spawnFailed
deriving DecidableEq, Repr

/-- The `result.exitCode` field observed by `withEnv` after
`await execa(cmd, args, \x7b stdio, env, reject: false \x7d)`.  Per execa's
documented contract, with `reject: false` the promise resolves (never
rejects) even when the command fails, and `exitCode` is `undefined` when the
process could not be spawned (binary not found) or was terminated by a
signal. -/
def execaNoRejectExitCode : ChildOutcome → Option Nat
  | .exited code => some code
  | .killedBySignal => none
  | .spawnFailed => none

/-- The exit code of the `withEnv` process itself: `process.exit(exitCode)`
when the resolved result carries a non-zero exit code, a normal return
(process exit 0) when it carries 0 or `undefined`, and the catch branch
(`console.error`; `process.exit(1)`) only when `execa` itself throws — which
`reject: false` prevents for a failed or unspawnable child. -/
def withEnvExitCode (o : ChildOutcome) : Nat :=
  match execaNoRejectExitCode o with
  | some code => if code != 0 then code else 0
  | none => 0

def exProbeC1 : Nat → List Nat → Nat := fun _ _ => 7000

def exSessW : DbSession := { id := "/w", branch := none, created_at := "t0" }

def exStC1 : DbState := ⟨[exSessW], [], []⟩

def exStC2 : DbState := ⟨[⟨"/s2", none, "t0"⟩], [⟨"/s2", "old", 7000⟩], []⟩

def badProbe : Nat → List Nat → Nat := fun _ _ => 7000

def raceProbe : Nat → List Nat → Nat := fun k _ => if k = 0 then 7000 else 7001

def fkProbe : Nat → List Nat → Nat := fun _ _ => 7002

def exStEmpty : DbState := ⟨[], [], []⟩

def exDestroyedRow : SessionRow :=
  { id := 1, session_id := "001", project_root := "/p", session_dir := "/s/001",
    branch := "", mode := "docker", in_place := 0, created_at := "t0",
    destroyed_at := some "t1" }

def exDestroyedStore : StoreState := { rows := [exDestroyedRow], nextId := 2 }

def exAllocA : PortAllocation := ⟨"/a", "app", 7100⟩

def exAllocB : PortAllocation := ⟨"/b", "app", 7200⟩

def exStC5 : DbState := ⟨[⟨"/a", none, "t0"⟩, ⟨"/b", none, "t1"⟩], [exAllocA, exAllocB], []⟩

def exRowActive : SessionRow :=
  { id := 1, session_id := "001", project_root := "/p", session_dir := "/s/001",
    branch := "", mode := "docker", in_place := 0, created_at := "t0",
    destroyed_at := none }

def exStC6 : StoreState := ⟨[exRowActive], 2⟩

def exInherited : EnvMap := fun k => if k == "PATH" then some "/usr/bin" else none

def allUsedIds : List String := (List.range 999).map (fun k => pad3 (k + 1))

lemma insertPortAllocation_ok {st st' : DbState} {a : PortAllocation}
    (h : insertPortAllocation st a = .ok st') :
    st'.sessions = st.sessions ∧ st'.reservations = st.reservations ∧
    st'.port_allocations = st.port_allocations ++ [a] ∧
    (∀ r ∈ st.port_allocations, r.port ≠ a.port) := by
  unfold insertPortAllocation at h
  split at h
  · simp at h
  · split at h
    · simp at h
    · split at h
      · simp at h
      · rename_i hport
        cases h
        refine ⟨rfl, rfl, rfl, ?_⟩
        intro r hr hpr
        exact hport (List.any_eq_true.2 ⟨r, hr, by simp [hpr]⟩)

lemma runInserts_ok_props :
    ∀ (batch : List PortAllocation) (st st' : DbState),
      runInserts st batch = .ok st' →
      st'.sessions = st.sessions ∧ st'.reservations = st.reservations ∧
      (∀ x ∈ st'.port_allocations, x ∈ st.port_allocations ∨ x ∈ batch) ∧
      (portsNodup st → portsNodup st') := by
  intro batch
  induction batch with
  | nil =>
    intro st st' h
    simp only [runInserts] at h
    cases h
    exact ⟨rfl, rfl, fun x hx => .inl hx, id⟩
  | cons a rest ih =>
    intro st st' h
    simp only [runInserts] at h
    cases hins : insertPortAllocation st a with
    | error e => rw [hins] at h; cases h
    | ok st1 =>
      rw [hins] at h
      obtain ⟨hs, hr, hmem, hnd⟩ := ih st1 st' h
      obtain ⟨hs1, hr1, hpa1, hnp1⟩ := insertPortAllocation_ok hins
      refine ⟨hs.trans hs1, hr.trans hr1, ?_, ?_⟩
      · intro x hx
        rcases hmem x hx with hx1 | hx2
        · rw [hpa1] at hx1
          rcases List.mem_append.1 hx1 with h1 | h2
          · exact .inl h1
          · simp only [List.mem_singleton] at h2
            subst h2
            exact .inr (List.mem_cons_self _ _)
        · exact .inr (List.mem_cons_of_mem _ hx2)
      · intro hnodup
        apply hnd
        unfold portsNodup getAllocatedPorts at hnodup ⊢
        rw [hpa1, List.map_append]
        rw [List.nodup_append]
        refine ⟨hnodup, List.nodup_singleton _, ?_⟩
        intro x hx hx2
        simp only [List.map_cons, List.map_nil, List.mem_singleton] at hx2
        subst hx2
        obtain ⟨r, hrmem, hpr⟩ := List.mem_map.1 hx
        exact hnp1 r hrmem hpr

lemma probeAllocs_sessionId (probe : Nat → List Nat → Nat) (sid : String) :
    ∀ (services : List String) (k : Nat) (exclude : List Nat) (a : PortAllocation),
      a ∈ probeAllocs probe sid k exclude services → a.session_id = sid := by
  intro services
  induction services with
  | nil => intro k ex a h; simp [probeAllocs] at h
  | cons n rest ih =>
    intro k ex a h
    simp only [probeAllocs] at h
    rcases List.mem_cons.1 h with h1 | h2
    · subst h1; rfl
    · exact ih _ _ _ h2

lemma probeAllocs_length (probe : Nat → List Nat → Nat) (sid : String) :
    ∀ (services : List String) (k : Nat) (exclude : List Nat),
      (probeAllocs probe sid k exclude services).length = services.length := by
  intro services
  induction services with
  | nil => intro k ex; rfl
  | cons n rest ih =>
    intro k ex
    simp only [probeAllocs, List.length_cons]
    rw [ih]

lemma probeAllocs_congr (p q : Nat → List Nat → Nat) (sid : String) :
    ∀ (services : List String) (k : Nat) (exclude : List Nat),
      (∀ j l, k ≤ j → j < k + services.length → q j l = p j l) →
      probeAllocs q sid k exclude services = probeAllocs p sid k exclude services := by
  intro services
  induction services with
  | nil => intro k ex _; rfl
  | cons n rest ih =>
    intro k ex hagree
    simp only [probeAllocs]
    have hq : q k ex = p k ex := hagree k ex (Nat.le_refl k) (by simp)
    rw [hq]
    congr 1
    exact ih (k + 1) (ex ++ [p k ex]) (fun j l hj1 hj2 => by
      apply hagree j l (by omega)
      simp only [List.length_cons] at hj2 ⊢
      omega)

/-- C1: in every registry state reachable through the engine's operations
(`allocatePorts`, `createDbSession`, `deleteDbSession`, `reservePort`,
`unreservePort`), no two rows of the `port_allocations` table carry the same
port number — port numbers are globally unique across all allocations of all
sessions, and every operation preserves this invariant. -/
theorem reachable_port_uniqueness (st : DbState) (h : Reach st) : portsNodup st := by
  induction h with
  | init => simp [portsNodup, getAllocatedPorts]
  | createSession hr hok ih =>
    rename_i st0 st1 s
    unfold createDbSession at hok
    split at hok
    · cases hok
    · cases hok
      simpa [portsNodup, getAllocatedPorts] using ih
  | deleteSession sid hr ih =>
    rename_i st0
    unfold deleteDbSession
    split
    · unfold portsNodup getAllocatedPorts at ih ⊢
      exact List.Nodup.sublist (List.Sublist.map _ (List.filter_sublist _)) ih
    · exact ih
  | alloc probe sid services hr ih =>
    rename_i st0
    unfold allocatePorts
    split
    · exact ih
    · cases h1 : runInserts st0 (firstAttempt probe st0 sid services) with
      | ok st1 => exact (runInserts_ok_props _ _ _ h1).2.2.2 ih
      | error e =>
        cases e with
        | constraintUnique =>
          cases h2 : runInserts st0 (retryAttempt probe st0 sid services) with
          | ok st2 => exact (runInserts_ok_props _ _ _ h2).2.2.2 ih
          | error e2 => exact ih
        | constraintPrimaryKey => exact ih
        | constraintForeignKey => exact ih
  | reserve hr hok ih =>
    rename_i st0 st1 p reason now
    unfold reservePort at hok
    split at hok
    · cases hok
    · cases hok
      simpa [portsNodup, getAllocatedPorts] using ih
  | unreserve p hr ih =>
    rename_i st0
    simpa [portsNodup, getAllocatedPorts, unreservePort] using ih

theorem reachable_port_uniqueness_witness :
    portsNodup (allocatePorts exProbeC1 exStC1 "/w" ["app", "db"]).2 :=
  reachable_port_uniqueness _
    (Reach.alloc exProbeC1 "/w" ["app", "db"] (Reach.createSession Reach.init rfl))

/-- C2: when the first transactional insert of `allocatePorts` fails with a
uniqueness violation, the exclusion set is recomputed from the registry, one
port is re-probed per service (the attempt lists have one entry per service)
and the transactional insert is retried exactly once: a failure of that
second attempt is returned to the caller with the registry unchanged (never
a silent partial result), a success returns the re-probed allocations; and a
first-attempt error other than a uniqueness violation is surfaced
immediately with the registry unchanged — in that case the result does not
even depend on the prober beyond the first attempt's probes, so no re-probe
happens. -/
theorem allocatePorts_retry_once (probe : Nat → List Nat → Nat) (st : DbState)
    (sid : String) (services : List String) (hne : services ≠ []) :
    ((firstAttempt probe st sid services).length = services.length ∧
     (retryAttempt probe st sid services).length = services.length) ∧
    (∀ e2, runInserts st (firstAttempt probe st sid services) = .error .constraintUnique →
        runInserts st (retryAttempt probe st sid services) = .error e2 →
        allocatePorts probe st sid services = (.error e2, st)) ∧
    (∀ st2, runInserts st (firstAttempt probe st sid services) = .error .constraintUnique →
        runInserts st (retryAttempt probe st sid services) = .ok st2 →
        allocatePorts probe st sid services =
          (.ok (retryAttempt probe st sid services), st2)) ∧
    (∀ e, runInserts st (firstAttempt probe st sid services) = .error e →
        e ≠ .constraintUnique →
        (allocatePorts probe st sid services = (.error e, st) ∧
         ∀ probe2, (∀ k l, k < services.length → probe2 k l = probe k l) →
           allocatePorts probe2 st sid services = (.error e, st))) := by
  have hempty : services.isEmpty = false := by
    cases services with
    | nil => exact absurd rfl hne
    | cons a l => rfl
  refine ⟨⟨probeAllocs_length probe sid services 0 (excludeBase st),
           probeAllocs_length probe sid services services.length (excludeBase st)⟩,
         ?_, ?_, ?_⟩
  · intro e2 h1 h2
    simp only [allocatePorts, hempty, Bool.false_eq_true, if_false, h1, h2]
  · intro st2 h1 h2
    simp only [allocatePorts, hempty, Bool.false_eq_true, if_false, h1, h2]
  · intro e h1 hne2
    have hfirst : ∀ q : Nat → List Nat → Nat,
        (∀ k l, k < services.length → q k l = probe k l) →
        firstAttempt q st sid services = firstAttempt probe st sid services := by
      intro q hq
      unfold firstAttempt
      exact probeAllocs_congr probe q sid services 0 (excludeBase st)
        (fun j l hj1 hj2 => hq j l (by omega))
    constructor
    · cases e with
      | constraintUnique => exact absurd rfl hne2
      | constraintPrimaryKey =>
        simp only [allocatePorts, hempty, Bool.false_eq_true, if_false, h1]
      | constraintForeignKey =>
        simp only [allocatePorts, hempty, Bool.false_eq_true, if_false, h1]
    · intro probe2 hagree
      have h1b : runInserts st (firstAttempt probe2 st sid services) = .error e := by
        rw [hfirst probe2 hagree]; exact h1
      cases e with
      | constraintUnique => exact absurd rfl hne2
      | constraintPrimaryKey =>
        simp only [allocatePorts, hempty, Bool.false_eq_true, if_false, h1b]
      | constraintForeignKey =>
        simp only [allocatePorts, hempty, Bool.false_eq_true, if_false, h1b]

theorem allocatePorts_retry_once_witness :
    allocatePorts badProbe exStC2 "/s2" ["svc"] = (.error .constraintUnique, exStC2) ∧
    allocatePorts raceProbe exStC2 "/s2" ["svc"] =
      (.ok [⟨"/s2", "svc", 7001⟩],
       ⟨[⟨"/s2", none, "t0"⟩], [⟨"/s2", "old", 7000⟩, ⟨"/s2", "svc", 7001⟩], []⟩) ∧
    allocatePorts fkProbe exStEmpty "/nosess" ["svc"] =
      (.error .constraintForeignKey, exStEmpty) := by
  refine ⟨?_, ?_, ?_⟩
  · exact (allocatePorts_retry_once badProbe exStC2 "/s2" ["svc"]
      (by simp)).2.1 .constraintUnique rfl rfl
  · exact (allocatePorts_retry_once raceProbe exStC2 "/s2" ["svc"]
      (by simp)).2.2.1 _ rfl rfl
  · exact ((allocatePorts_retry_once fkProbe exStEmpty "/nosess" ["svc"]
      (by simp)).2.2.2 .constraintForeignKey rfl (by simp)).1

/-- C10: whatever `allocatePorts` does — return allocations, return the
empty list for an empty service list, or throw on either attempt — the
`sessions` and `reservations` tables of the final registry state equal those
of the starting state, and every row of the final `port_allocations` table
is either a pre-existing row or a row for the given session id. -/
theorem allocatePorts_frame (probe : Nat → List Nat → Nat) (st : DbState)
    (sid : String) (services : List String) :
    (allocatePorts probe st sid services).2.sessions = st.sessions ∧
    (allocatePorts probe st sid services).2.reservations = st.reservations ∧
    (∀ a ∈ (allocatePorts probe st sid services).2.port_allocations,
      a ∈ st.port_allocations ∨ a.session_id = sid) := by
  unfold allocatePorts
  split
  · exact ⟨rfl, rfl, fun a ha => .inl ha⟩
  · cases h1 : runInserts st (firstAttempt probe st sid services) with
    | ok st1 =>
      obtain ⟨hs, hr, hmem, _⟩ := runInserts_ok_props _ _ _ h1
      exact ⟨hs, hr, fun a ha => (hmem a ha).imp id
        (fun hm => probeAllocs_sessionId probe sid services 0 (excludeBase st) a hm)⟩
    | error e =>
      cases e with
      | constraintUnique =>
        cases h2 : runInserts st (retryAttempt probe st sid services) with
        | ok st2 =>
          obtain ⟨hs, hr, hmem, _⟩ := runInserts_ok_props _ _ _ h2
          exact ⟨hs, hr, fun a ha => (hmem a ha).imp id
            (fun hm => probeAllocs_sessionId probe sid services services.length
              (excludeBase st) a hm)⟩
        | error e2 => exact ⟨rfl, rfl, fun a ha => .inl ha⟩
      | constraintPrimaryKey => exact ⟨rfl, rfl, fun a ha => .inl ha⟩
      | constraintForeignKey => exact ⟨rfl, rfl, fun a ha => .inl ha⟩

theorem allocatePorts_frame_witness :
    (allocatePorts badProbe exStC2 "/s2" ["svc"]).2.sessions = exStC2.sessions ∧
    (allocatePorts badProbe exStC2 "/s2" ["svc"]).2.reservations = exStC2.reservations ∧
    ((⟨"/s2", "old", 7000⟩ : PortAllocation) ∈ exStC2.port_allocations ∨
      (⟨"/s2", "old", 7000⟩ : PortAllocation).session_id = "/s2") := by
  obtain ⟨hs, hr, hmem⟩ := allocatePorts_frame badProbe exStC2 "/s2" ["svc"]
  exact ⟨hs, hr, hmem ⟨"/s2", "old", 7000⟩ (by decide)⟩

/-- C3 counterexample: in a store whose only row carrying the pair
`("001", "/p")` is soft-deleted (`destroyed_at` set), `SessionStore.insert`
of that pair still fails with the uniqueness violation — the claim says such
an insert succeeds. -/
theorem insert_destroyed_pair_conflict :
    (∀ r ∈ exDestroyedStore.rows, r.destroyed_at ≠ none) ∧
    SessionStore.insert exDestroyedStore
      { sessionId := "001", projectRoot := "/p", sessionDir := "/s/001b",
        branch := none, mode := none, inPlace := none } "t2" = .error .constraintUnique := by
  exact ⟨by decide, rfl⟩

/-- C3 (amended): `SessionStore.insert` fails with the conflict error if and
only if a row with the same `(session id, project root)` pair exists among
*all* rows of the table, soft-deleted rows included — the schema's
`UNIQUE(session_id, project_root)` is not a partial index, and callers that
re-create a session first hard-delete the old destroyed row. -/
theorem insert_conflict_iff (st : StoreState) (row : InsertRow) (now : String) :
    SessionStore.insert st row now = .error .constraintUnique ↔
      ∃ r ∈ st.rows, r.session_id = row.sessionId ∧ r.project_root = row.projectRoot := by
  unfold SessionStore.insert
  split
  · rename_i hc
    refine iff_of_true rfl ?_
    obtain ⟨r, hr, hb⟩ := List.any_eq_true.1 hc
    exact ⟨r, hr, by simpa [Bool.and_eq_true, beq_iff_eq] using hb⟩
  · rename_i hc
    refine iff_of_false (by simp) ?_
    rintro ⟨r, hr, h1, h2⟩
    exact hc (List.any_eq_true.2 ⟨r, hr, by simp [h1, h2]⟩)

theorem insert_conflict_iff_witness :
    SessionStore.insert exDestroyedStore
      { sessionId := "001", projectRoot := "/p", sessionDir := "/s/001c",
        branch := none, mode := none, inPlace := none } "t3" = .error .constraintUnique :=
  (insert_conflict_iff exDestroyedStore
    { sessionId := "001", projectRoot := "/p", sessionDir := "/s/001c",
      branch := none, mode := none, inPlace := none } "t3").mpr
    ⟨exDestroyedRow, by decide, rfl, rfl⟩

/-- C5: hard-deleting a session with `deleteDbSession` removes all of that
session's `port_allocations` rows in the same operation (given referential
integrity, which SQLite enforces): afterwards no allocation row with that
session id remains, no allocation row appears that was not there before, and
every allocation row of any other session survives untouched. -/
theorem deleteDbSession_cascade (st : DbState) (sid : String) (hfk : fkIntact st = true) :
    (∀ a ∈ (deleteDbSession st sid).port_allocations, a.session_id ≠ sid) ∧
    (∀ a ∈ (deleteDbSession st sid).port_allocations, a ∈ st.port_allocations) ∧
    (∀ a ∈ st.port_allocations, a.session_id ≠ sid →
        a ∈ (deleteDbSession st sid).port_allocations) := by
  unfold deleteDbSession
  split
  · refine ⟨?_, ?_, ?_⟩
    · intro a ha
      have hb := (List.mem_filter.1 ha).2
      simpa [bne_iff_ne] using hb
    · intro a ha
      exact (List.mem_filter.1 ha).1
    · intro a ha hne
      exact List.mem_filter.2 ⟨ha, by simpa [bne_iff_ne] using hne⟩
  · rename_i hno
    refine ⟨?_, fun a ha => ha, fun a ha _ => ha⟩
    intro a ha hasid
    apply hno
    have hall := List.all_eq_true.1 (by unfold fkIntact at hfk; exact hfk) a ha
    rw [hasid] at hall
    exact hall

theorem deleteDbSession_cascade_witness :
    fkIntact exStC5 = true ∧ exAllocB.session_id ≠ "/a" ∧
      exAllocB ∈ (deleteDbSession exStC5 "/a").port_allocations := by
  have h := deleteDbSession_cascade exStC5 "/a" (by decide)
  exact ⟨by decide, h.1 exAllocB (by decide), h.2.2 exAllocB (by decide) (by decide)⟩

lemma StoreState.ext2 {a b : StoreState} (h1 : a.rows = b.rows)
    (h2 : a.nextId = b.nextId) : a = b := by
  cases a; cases b; cases h1; cases h2; rfl

lemma markDestroyed_fst (st : StoreState) (root sid now : String) :
    (SessionStore.markDestroyed st root sid now).1 = st.rows.any (activeMatch root sid) := rfl

lemma markDestroyed_rows (st : StoreState) (root sid now : String) :
    (SessionStore.markDestroyed st root sid now).2.rows =
      st.rows.map (fun r =>
        if activeMatch root sid r then { r with destroyed_at := some now } else r) := rfl

lemma markDestroyed_nextId (st : StoreState) (root sid now : String) :
    (SessionStore.markDestroyed st root sid now).2.nextId = st.nextId := rfl

/-- C6: `SessionStore.markDestroyed` is an idempotent soft-delete: with some
active row matching `(project root, session id)` it stamps the destruction
timestamp and reports `true`; with no such active row (absent or already
destroyed) it reports `false` and leaves the store unchanged; and a second
call — with any timestamp — reports `false` and leaves the store exactly as
after the first call. -/
theorem markDestroyed_idempotent (st : StoreState) (root sid t1 t2 : String) :
    ((∃ r ∈ st.rows, r.project_root = root ∧ r.session_id = sid ∧ r.destroyed_at = none) →
        (SessionStore.markDestroyed st root sid t1).1 = true) ∧
    ((∀ r ∈ st.rows, r.project_root = root → r.session_id = sid → r.destroyed_at ≠ none) →
        SessionStore.markDestroyed st root sid t1 = (false, st)) ∧
    (SessionStore.markDestroyed (SessionStore.markDestroyed st root sid t1).2 root sid t2 =
        (false, (SessionStore.markDestroyed st root sid t1).2)) := by
  refine ⟨?_, ?_, ?_⟩
  · rintro ⟨r, hr, h1, h2, h3⟩
    rw [markDestroyed_fst]
    exact List.any_eq_true.2 ⟨r, hr, by simp [activeMatch, h1, h2, h3]⟩
  · intro h
    have hm : ∀ r ∈ st.rows, activeMatch root sid r = false := by
      intro r hr
      have hnot : ¬ activeMatch root sid r = true := by
        simp only [activeMatch, Bool.and_eq_true, beq_iff_eq, Option.isNone_iff_eq_none]
        rintro ⟨⟨h1, h2⟩, h3⟩
        exact h r hr h1 h2 h3
      cases hb : activeMatch root sid r with
      | false => rfl
      | true => exact absurd hb hnot
    apply Prod.ext
    · rw [markDestroyed_fst]
      cases hb : st.rows.any (activeMatch root sid) with
      | false => rfl
      | true =>
        obtain ⟨r, hr, hrb⟩ := List.any_eq_true.1 hb
        rw [hm r hr] at hrb
        cases hrb
    · apply StoreState.ext2
      · rw [markDestroyed_rows]
        have := List.map_congr_left (l := st.rows)
          (f := fun r =>
            if activeMatch root sid r then { r with destroyed_at := some t1 } else r)
          (g := id) (fun r hr => by simp [hm r hr])
        simpa using this
      · rw [markDestroyed_nextId]
  · have key : ∀ r : SessionRow,
        activeMatch root sid
          (if activeMatch root sid r then { r with destroyed_at := some t1 } else r) = false := by
      intro r
      cases hb : activeMatch root sid r with
      | true => simp [hb, activeMatch]
      | false => simp [hb]
    apply Prod.ext
    · rw [markDestroyed_fst, markDestroyed_rows]
      cases hb : ((st.rows.map (fun r =>
          if activeMatch root sid r then { r with destroyed_at := some t1 } else r)).any
            (activeMatch root sid)) with
      | false => rfl
      | true =>
        obtain ⟨x, hx, hxb⟩ := List.any_eq_true.1 hb
        obtain ⟨r, hr, hfr⟩ := List.mem_map.1 hx
        rw [← hfr, key r] at hxb
        cases hxb
    · apply StoreState.ext2
      · rw [markDestroyed_rows, markDestroyed_rows]
        refine (List.map_congr_left ?_).trans (List.map_id _)
        intro x hx
        obtain ⟨r, hr, hfr⟩ := List.mem_map.1 hx
        rw [← hfr]
        simp [key r]
      · rw [markDestroyed_nextId, markDestroyed_nextId]

theorem markDestroyed_idempotent_witness :
    (SessionStore.markDestroyed exStC6 "/p" "001" "t1").1 = true ∧
    SessionStore.markDestroyed (⟨[], 5⟩ : StoreState) "/p" "001" "t1" =
      (false, (⟨[], 5⟩ : StoreState)) ∧
    SessionStore.markDestroyed (SessionStore.markDestroyed exStC6 "/p" "001" "t1").2
        "/p" "001" "t2" =
      (false, (SessionStore.markDestroyed exStC6 "/p" "001" "t1").2) :=
  ⟨(markDestroyed_idempotent exStC6 "/p" "001" "t1" "t2").1
      ⟨exRowActive, by decide, rfl, rfl, rfl⟩,
   (markDestroyed_idempotent (⟨[], 5⟩ : StoreState) "/p" "001" "t1" "t2").2.1
      (by intro r hr; simp at hr),
   (markDestroyed_idempotent exStC6 "/p" "001" "t1" "t2").2.2⟩

lemma containsSub_cons (pat : List Char) (c : Char) (rest : List Char) :
    containsSub pat (c :: rest) = (pat.isPrefixOf (c :: rest) || containsSub pat rest) := rfl

lemma replaceAllAux_no_match (pat rep : List Char) :
    ∀ s : List Char, containsSub pat s = false → replaceAllAux pat rep s 0 = s := by
  intro s
  induction s with
  | nil => intro _; rfl
  | cons c rest ih =>
    intro h
    rw [containsSub_cons, Bool.or_eq_false_iff] at h
    obtain ⟨h1, h2⟩ := h
    simp only [replaceAllAux, h1, Bool.false_and, Bool.false_eq_true, if_false]
    rw [ih h2]

lemma replaceAll_no_match (pat rep s : List Char) (h : containsSub pat s = false) :
    replaceAll pat rep s = s :=
  replaceAllAux_no_match pat rep s h

lemma renderString_no_tokens :
    ∀ (ports : List (String × Nat)) (tmpl : List Char),
      (∀ p ∈ ports, containsSub (tokenOf p.1) tmpl = false) →
      renderString ports tmpl = tmpl := by
  intro ports
  induction ports with
  | nil => intro tmpl _; rfl
  | cons p rest ih =>
    intro tmpl h
    unfold renderString
    simp only [List.foldl_cons]
    rw [replaceAll_no_match _ _ _ (h p (List.mem_cons_self _ _))]
    exact ih tmpl (fun q hq => h q (List.mem_cons_of_mem _ hq))

lemma containsSub_head_notin (p : List Char) (d : Char) :
    ∀ s : List Char, (∀ c ∈ s, c ≠ d) → containsSub (d :: p) s = false := by
  intro s
  induction s with
  | nil => intro _; rfl
  | cons c rest ih =>
    intro h
    rw [containsSub_cons, Bool.or_eq_false_iff]
    constructor
    · simp only [List.isPrefixOf]
      have hdc : (d == c) = false := by
        have hne := h c (List.mem_cons_self _ _)
        simp only [beq_eq_false_iff_ne]
        exact fun hh => hne hh.symm
      rw [hdc]
      simp
    · exact ih (fun x hx => h x (List.mem_cons_of_mem _ hx))

lemma isPrefixOf_append_same (n : List Char) :
    ∀ xs ys : List Char, (n ++ xs).isPrefixOf (n ++ ys) = xs.isPrefixOf ys := by
  induction n with
  | nil => intro xs ys; rfl
  | cons a t ih =>
    intro xs ys
    simp only [List.cons_append, List.isPrefixOf, beq_self_eq_true, Bool.true_and]
    exact ih xs ys

lemma token_no_overlap (n e : List Char)
    (hn : ∀ c ∈ n, c ≠ dollarCh) (he : ∀ c ∈ e, c ≠ dollarCh)
    (hene : e ≠ []) (hhead : e.head? ≠ some rbraceCh) :
    containsSub (tokenLC n) (tokenLC (n ++ e)) = false := by
  cases e with
  | nil => exact absurd rfl hene
  | cons e0 etail =>
    have he0 : e0 ≠ rbraceCh := fun hh => hhead (by simp [hh])
    show containsSub (tokenLC n)
      (dollarCh :: lbraceCh :: ((n ++ e0 :: etail) ++ [rbraceCh])) = false
    rw [containsSub_cons, Bool.or_eq_false_iff]
    constructor
    · show (dollarCh :: lbraceCh :: (n ++ [rbraceCh])).isPrefixOf
        (dollarCh :: lbraceCh :: ((n ++ e0 :: etail) ++ [rbraceCh])) = false
      simp only [List.isPrefixOf, beq_self_eq_true, Bool.true_and]
      rw [List.append_assoc, isPrefixOf_append_same]
      simp only [List.cons_append, List.isPrefixOf]
      have hre : (rbraceCh == e0) = false := by
        simp only [beq_eq_false_iff_ne]
        exact fun hh => he0 hh.symm
      rw [hre]
      simp
    · apply containsSub_head_notin
      intro c hc
      rcases List.mem_cons.1 hc with h1 | h2
      · subst h1; decide
      · rcases List.mem_append.1 h2 with h3 | h4
        · rcases List.mem_append.1 h3 with h5 | h6
          · exact hn c h5
          · rcases List.mem_cons.1 h6 with h7 | h8
            · subst h7; exact he c (List.mem_cons_self _ _)
            · exact he c (List.mem_cons_of_mem _ h8)
        · simp only [List.mem_singleton] at h4
          subst h4; decide

/-- C4: rendering `\x7bkey: "$\x7ba\x7d-$\x7bb\x7d"\x7d` with ports
`\x7ba: 1, b: 2\x7d` yields `\x7bkey: "1-2"\x7d`; a template in which no
known port token occurs at all is returned verbatim (unknown references are
not an error); the token of a name never matches inside the token of a
strictly longer name (for names free of the dollar character and whose
extension does not start with a closing brace), so `$\x7bapp\x7d` is never
substituted inside `$\x7bapp2\x7d`; and in a mixed template the known tokens
are replaced by the decimal port values while an unknown token survives
verbatim. -/
theorem renderAppEnv_spec :
    renderAppEnv [("key", "${a}-${b}".toList)] [("a", 1), ("b", 2)] =
      [("key", "1-2".toList)] ∧
    (∀ (ports : List (String × Nat)) (tmpl : List Char),
      (∀ p ∈ ports, containsSub (tokenOf p.1) tmpl = false) →
      renderString ports tmpl = tmpl) ∧
    (∀ (n e rep : List Char), (∀ c ∈ n, c ≠ dollarCh) → (∀ c ∈ e, c ≠ dollarCh) →
      e ≠ [] → e.head? ≠ some rbraceCh →
      replaceAll (tokenLC n) rep (tokenLC (n ++ e)) = tokenLC (n ++ e)) ∧
    renderAppEnv [("k", "${app2} and ${z}".toList)] [("app", 1), ("app2", 2)] =
      [("k", "2 and ${z}".toList)] := by
  refine ⟨by decide, renderString_no_tokens, ?_, by decide⟩
  intro n e rep hn he hene hhead
  exact replaceAll_no_match _ _ _ (token_no_overlap n e hn he hene hhead)

theorem renderAppEnv_spec_witness :
    renderString [("a", 1)] "${z}".toList = "${z}".toList ∧
    replaceAll (tokenOf "app") (natChars 1) (tokenOf "app2") = tokenOf "app2" := by
  constructor
  · exact renderAppEnv_spec.2.1 [("a", 1)] "${z}".toList (by decide)
  · exact renderAppEnv_spec.2.2.1 "app".toList "2".toList (natChars 1)
      (by decide) (by decide) (by decide) (by decide)

/-- C7: when `findProjectRoot` finds no project root above the working
directory (`root = none`), or a root is found but the registry has no
session row for the working directory, the environment `withEnv` passes to
the child command is pointwise identical to the inherited one — no keys
added, removed, or changed. -/
theorem withEnv_passthrough (st : DbState) (cwd : String)
    (buildEnv : String → DbSession → List PortAllocation → EnvMap)
    (inherited : EnvMap) :
    (∀ k, withEnvFinalEnv none st cwd buildEnv inherited k = inherited k) ∧
    (∀ projectRoot, getDbSession st cwd = none →
      ∀ k, withEnvFinalEnv (some projectRoot) st cwd buildEnv inherited k = inherited k) := by
  constructor
  · intro k
    rfl
  · intro projectRoot hsess k
    unfold withEnvFinalEnv withEnvSessionEnv
    rw [hsess]
    rfl

theorem withEnv_passthrough_witness :
    getDbSession exStEmpty "/x" = none ∧
    withEnvFinalEnv none exStEmpty "/x" (fun _ _ _ => emptyEnv) exInherited "PATH" =
      exInherited "PATH" ∧
    withEnvFinalEnv (some "/p") exStEmpty "/x" (fun _ _ _ => emptyEnv) exInherited "PATH" =
      exInherited "PATH" :=
  ⟨rfl,
   (withEnv_passthrough exStEmpty "/x" (fun _ _ _ => emptyEnv) exInherited).1 "PATH",
   (withEnv_passthrough exStEmpty "/x" (fun _ _ _ => emptyEnv) exInherited).2 "/p" rfl "PATH"⟩

/-- C8: evaluation of the `withEnv` exit-code logic.  When the child runs
and exits with code `c`, the injector's exit code is `c` (non-zero codes are
propagated through `process.exit`, zero falls through to a normal exit 0).
But when the child cannot be started (binary not found), `execa` with
`reject: false` resolves with `exitCode` undefined, the
`result.exitCode !== undefined` guard skips `process.exit`, the catch branch
never runs, and the injector exits 0 — contradicting the claim (and the
code's own catch-branch comment) that a spawn failure is reported with a
non-zero exit. -/
theorem withEnvExitCode_eval :
    (∀ c, withEnvExitCode (.exited c) = c) ∧
    withEnvExitCode .spawnFailed = 0 := by
  constructor
  · intro c
    unfold withEnvExitCode execaNoRejectExitCode
    by_cases h : c = 0
    · subst h; rfl
    · simp [h]
  · rfl

lemma findFirstFree_ok (usedIds : List String) :
    ∀ (m i j : Nat), i ≤ j → j < i + m → usedIds.contains (pad3 j) = false →
      (∀ k, i ≤ k → k < j → usedIds.contains (pad3 k) = true) →
      findFirstFree usedIds (List.range' i m) = .ok (pad3 j) := by
  intro m
  induction m with
  | zero => intro i j h1 h2 _ _; omega
  | succ m ih =>
    intro i j h1 h2 hfree hmin
    simp only [List.range']
    by_cases hij : i = j
    · subst hij
      simp only [findFirstFree, hfree, Bool.false_eq_true, if_false]
    · have hlt : i < j := by omega
      have hi : usedIds.contains (pad3 i) = true := hmin i (Nat.le_refl i) hlt
      simp only [findFirstFree, hi, if_true]
      exact ih (i + 1) j (by omega) (by omega) hfree
        (fun k hk1 hk2 => hmin k (by omega) hk2)

lemma findFirstFree_all (usedIds : List String) :
    ∀ (m i : Nat), (∀ k, i ≤ k → k < i + m → usedIds.contains (pad3 k) = true) →
      findFirstFree usedIds (List.range' i m) = .error noIdsMsg := by
  intro m
  induction m with
  | zero => intro i _; rfl
  | succ m ih =>
    intro i hall
    have hi : usedIds.contains (pad3 i) = true := hall i (Nat.le_refl i) (by omega)
    simp only [List.range', findFirstFree, hi, if_true]
    exact ih (i + 1) (fun k hk1 hk2 => hall k (by omega) (by omega))

/-- C9: `findNextSessionId` returns the smallest identifier among
`"001"`..`"999"` that is not in the used set — whenever `j` is the least
index in `1..999` whose padded identifier is unused, the result is exactly
`pad3 j`; concretely, for the used set `\x7b"001", "003"\x7d` it returns
`"002"`; and when all 999 identifiers are used it fails with the explicit
no-identifiers-available error instead of returning a used one. -/
theorem findNextSessionId_spec (usedIds : List String) :
    (∀ j, 1 ≤ j → j ≤ 999 → usedIds.contains (pad3 j) = false →
      (∀ k, k < j → 1 ≤ k → usedIds.contains (pad3 k) = true) →
      findNextSessionId usedIds = .ok (pad3 j)) ∧
    findNextSessionId ["001", "003"] = .ok "002" ∧
    ((∀ k, k < 1000 → 1 ≤ k → usedIds.contains (pad3 k) = true) →
      findNextSessionId usedIds = .error noIdsMsg) := by
  refine ⟨?_, rfl, ?_⟩
  · intro j h1 h2 hfree hmin
    exact findFirstFree_ok usedIds 999 1 j h1 (by omega) hfree
      (fun k hk1 hk2 => hmin k hk2 hk1)
  · intro hall
    exact findFirstFree_all usedIds 999 1 (fun k hk1 hk2 => hall k (by omega) hk1)

theorem findNextSessionId_spec_witness :
    findNextSessionId ["001", "003"] = .ok (pad3 2) ∧
    findNextSessionId allUsedIds = .error noIdsMsg := by
  constructor
  · exact (findNextSessionId_spec ["001", "003"]).1 2 (by omega) (by omega)
      (by decide) (by decide)
  · refine (findNextSessionId_spec allUsedIds).2.2 ?_
    intro k hk1 hk2
    have hmem : pad3 k ∈ allUsedIds := by
      unfold allUsedIds
      refine List.mem_map.2 ⟨k - 1, List.mem_range.2 (by omega), ?_⟩
      congr 1
      omega
    exact List.elem_eq_true_of_mem hmem
